import Mathlib

/-!
Verification development for the BVMT trading-assistant repository.

The definitions below are a shallow embedding, in Lean 4, of the decision
engine (`src/modules/decision/engine.py`), the explainer
(`src/modules/decision/explainer.py`) and the portfolio simulator
(`src/modules/decision/portfolio.py`).  Python floats are modelled as exact
rationals; The Python `round(x, 2)` call and `%`/`.2f` string formatting round
half-to-even, which is modelled by `rhe` below.  Python dicts (holdings,
price maps) are modelled as insertion-ordered association lists with unique
keys, matching dict iteration order; `datetime.now()` is modelled by an
explicit `now : String` argument threaded to the places that read the clock.
-/

/-- Round a rational to the nearest integer, ties to even: the model of
Python round/format rounding (ROUND_HALF_EVEN). -/
def rhe (q : ℚ) : ℤ :=
  if q - (⌊q⌋ : ℚ) < 1/2 then ⌊q⌋
  else if 1/2 < q - (⌊q⌋ : ℚ) then ⌊q⌋ + 1
  else if ⌊q⌋ % 2 = 0 then ⌊q⌋ else ⌊q⌋ + 1

/-- Model of the Python call `round(q, 2)`. -/
def round2 (q : ℚ) : ℚ := (rhe (q * 100) : ℚ) / 100

/-- Left-pad a numeral string with zeros to width `n`. -/
def padZeros (s : String) (n : ℕ) : String :=
  String.mk (List.replicate (n - s.length) '0') ++ s

/-- Model of the Python fixed-point formatting `f"{q:.ndf}"` (sign taken from
the value, `nd` digits after the point, half-even rounding). -/
def fmtFix (nd : ℕ) (q : ℚ) : String :=
  let scaled : ℤ := rhe (q * ((10 : ℤ) ^ nd : ℤ))
  let mag : ℕ := scaled.natAbs
  let sign : String := if q < 0 then "-" else ""
  let ip : ℕ := mag / 10 ^ nd
  let fp : ℕ := mag % 10 ^ nd
  if nd = 0 then sign ++ toString ip
  else sign ++ toString ip ++ "." ++ padZeros (toString fp) nd

/-- Model of the Python formatting `f"{q:+.ndf}"` (explicit plus sign for nonnegative). -/
def fmtFixSigned (nd : ℕ) (q : ℚ) : String :=
  (if q < 0 then "" else "+") ++ fmtFix nd q

/-- Model of the Python percent formatting `f"{q:.0%}"`. -/
def fmtPct0 (q : ℚ) : String := fmtFix 0 (q * 100) ++ "%"

/-- Model of the Python percent formatting `f"{q:.1%}"`. -/
def fmtPct1 (q : ℚ) : String := fmtFix 1 (q * 100) ++ "%"

/-- First value bound to key `k` in an association list (Python dict lookup). -/
def aFind {α : Type} : List (String × α) → String → Option α
  | [], _ => none
  | (k', v) :: t, k => if k' = k then some v else aFind t k

/-- Bind key `k` to `v`: replace the first binding of `k`, or append a new
binding at the end (Python dict assignment, insertion-ordered). -/
def aSet {α : Type} : List (String × α) → String → α → List (String × α)
  | [], k, v => [(k, v)]
  | (k', v') :: t, k, v => if k' = k then (k, v) :: t else (k', v') :: aSet t k v

/-- Remove the first binding of key `k` (Python `del d[k]`). -/
def aErase {α : Type} : List (String × α) → String → List (String × α)
  | [], _ => []
  | (k', v') :: t, k => if k' = k then t else (k', v') :: aErase t k

/-- Transaction type tag (the BUY / SELL strings of the Python dicts). -/
inductive TxType where
  | BUY
  | SELL
deriving DecidableEq

/-- One entry of `Portfolio.transaction_history`.  BUY transactions carry no
`profit_loss` key, modelled as `none`. -/
structure Transaction where
  type : TxType
  stock_code : String
  stock_name : String
  quantity : ℕ
  price : ℚ
  total : ℚ
  profit_loss : Option ℚ
  date : String
  timestamp : String
  cash_after : ℚ
deriving DecidableEq

/-- One value of the `Portfolio.holdings` dict.  The Python dict created on a
first buy lacks `last_buy_date` for the instants before line 95 of
`portfolio.py` sets it; every holding visible outside `buy` has it set, so it
is modelled as a plain field (the fresh value `""` is always overwritten
within the same `buy`). -/
structure Holding where
  stock_name : String
  quantity : ℕ
  avg_price : ℚ
  first_buy_date : String
  last_buy_date : String
deriving DecidableEq

/-- One entry of `Portfolio.daily_values`. -/
structure DailyValue where
  date : String
  value : ℚ
deriving DecidableEq

/-- One entry of `Portfolio.daily_snapshots` (built by `take_snapshot`). -/
structure Snapshot where
  date : String
  total_value : ℚ
  cash : ℚ
  holdings_value : ℚ
  num_positions : ℕ
  timestamp : String
deriving DecidableEq

/-- The `Portfolio` object of `portfolio.py`, fields in constructor order. -/
structure Portfolio where
  name : String
  initial_capital : ℚ
  cash : ℚ
  holdings : List (String × Holding)
  transaction_history : List Transaction
  daily_snapshots : List Snapshot
  daily_values : List DailyValue
  created_at : String
deriving DecidableEq

/-- `Portfolio.__init__` (the `created_at = datetime.now().isoformat()` call
is modelled by the explicit `now` argument). -/
def mkPortfolio (initial_capital : ℚ) (name : String) (now : String) : Portfolio :=
  ⟨name, initial_capital, initial_capital, [], [], [], [], now⟩

/-- Price used for one holding: `current_prices.get(code, holding.avg_price)`. -/
def priceFor (prices : List (String × ℚ)) (code : String) (h : Holding) : ℚ :=
  (aFind prices code).getD h.avg_price

/-- `Portfolio.get_holdings_value`. -/
def Portfolio.getHoldingsValue (p : Portfolio) (prices : List (String × ℚ)) : ℚ :=
  (p.holdings.map (fun pr => (pr.2.quantity : ℚ) * priceFor prices pr.1 pr.2)).sum

/-- `Portfolio.get_current_value`. -/
def Portfolio.getCurrentValue (p : Portfolio) (prices : List (String × ℚ)) : ℚ :=
  p.cash + p.getHoldingsValue prices

/-- Update-or-append step of `Portfolio._record_daily_value`: the reversed
scan updates the value of the last entry carrying `date`, else appends. -/
def dvUpd : List DailyValue → String → ℚ → List DailyValue
  | [], d, v => [⟨d, v⟩]
  | e :: t, d, v =>
    if t.any (fun x => x.date == d) then e :: dvUpd t d v
    else if e.date = d then ⟨d, v⟩ :: t
    else e :: (t ++ [⟨d, v⟩])

/-- `Portfolio._record_daily_value`: portfolio value marked with per-holding
average prices overridden by `overrides`, written into `daily_values`.  The
Python code builds the dict `{code: avg_price} | overrides` and calls
`get_current_value` on it; since that dict binds every held code, the lookup
below (override first, else average price) computes the same value. -/
def Portfolio.recordDailyValue (p : Portfolio) (date : String)
    (overrides : List (String × ℚ)) : Portfolio :=
  let value :=
    p.cash + (p.holdings.map
      (fun pr => (pr.2.quantity : ℚ) * ((aFind overrides pr.1).getD pr.2.avg_price))).sum
  { p with daily_values := dvUpd p.daily_values date value }

/-- Message text: Fonds insuffisants, with the required and available amounts. -/
def insufficientFundsMsg (required available : ℚ) : String :=
  "Fonds insuffisants. Requis: " ++ fmtFix 2 required ++ " TND, Disponible: " ++
    fmtFix 2 available ++ " TND"

/-- Message text: Achat reussi, with quantity, stock name and price. -/
def buyOkMsg (quantity : ℕ) (stock_name : String) (price : ℚ) : String :=
  "Achat reussi: " ++ toString quantity ++ " actions de " ++ stock_name ++ " a " ++
    fmtFix 2 price ++ " TND"

/-- Message of the no-position sell rejection. -/
def noPositionMsg : String := "Vous ne possedez pas d\x27actions de ce titre"

/-- Message text: Quantite insuffisante, with available and requested counts. -/
def insufficientQtyMsg (available requested : ℕ) : String :=
  "Quantite insuffisante. Disponible: " ++ toString available ++ ", Demande: " ++
    toString requested

/-- Message text: Vente reussie, with quantity, price and realized P/L. -/
def sellOkMsg (quantity : ℕ) (price profit_loss : ℚ) : String :=
  "Vente reussie: " ++ toString quantity ++ " actions a " ++ fmtFix 2 price ++
    " TND (P/L: " ++ fmtFixSigned 2 profit_loss ++ " TND)"

/-- Result dict of `Portfolio.buy`. -/
inductive BuyResult where
  | insufficientFunds (message : String) (required available : ℚ)
  | ok (message : String) (tx : Transaction)
deriving DecidableEq

/-- Result dict of `Portfolio.sell`. -/
inductive SellResult where
  | noPosition (message : String) (stock_code : String)
  | insufficientQuantity (message : String) (available : ℕ)
  | ok (message : String) (tx : Transaction) (profit_loss : ℚ)
deriving DecidableEq

/-- Create-or-update step of `Portfolio.buy` (lines 80 to 95 of
`portfolio.py`): start from the previous holding (or the fresh dict created
on a first buy) and recompute quantity and volume-weighted average price. -/
def buyUpdatedHolding (prev : Option Holding) (stock_name : String) (price : ℚ)
    (quantity : ℕ) (date : String) : Holding :=
  let h0 : Holding :=
    match prev with
    | some h => h
    | none => ⟨stock_name, 0, 0, date, ""⟩
  let total_quantity := h0.quantity + quantity
  let total_value := (h0.quantity : ℚ) * h0.avg_price + (quantity : ℚ) * price
  { h0 with quantity := total_quantity,
            avg_price := if 0 < total_quantity then total_value / (total_quantity : ℚ) else 0,
            last_buy_date := date }

/-- `Portfolio.buy` (lines 41 to 116 of `portfolio.py`). -/
def Portfolio.buy (p : Portfolio) (stock_code stock_name : String) (price : ℚ)
    (quantity : ℕ) (date now : String) : BuyResult × Portfolio :=
  if price * (quantity : ℚ) > p.cash then
    (BuyResult.insufficientFunds (insufficientFundsMsg (price * (quantity : ℚ)) p.cash)
      (price * (quantity : ℚ)) p.cash, p)
  else
    let cash' := p.cash - price * (quantity : ℚ)
    let h1 : Holding := buyUpdatedHolding (aFind p.holdings stock_code) stock_name price quantity date
    let tx : Transaction :=
      ⟨TxType.BUY, stock_code, stock_name, quantity, price, price * (quantity : ℚ), none, date, now, cash'⟩
    let p' : Portfolio :=
      { p with cash := cash', holdings := aSet p.holdings stock_code h1,
               transaction_history := p.transaction_history ++ [tx] }
    (BuyResult.ok (buyOkMsg quantity stock_name price) tx,
      p'.recordDailyValue date [(stock_code, price)])

/-- `Portfolio.sell` (lines 118 to 195 of `portfolio.py`). -/
def Portfolio.sell (p : Portfolio) (stock_code : String) (price : ℚ)
    (quantity : ℕ) (date now : String) : SellResult × Portfolio :=
  match aFind p.holdings stock_code with
  | none => (SellResult.noPosition noPositionMsg stock_code, p)
  | some holding =>
    if holding.quantity < quantity then
      (SellResult.insufficientQuantity (insufficientQtyMsg holding.quantity quantity)
        holding.quantity, p)
    else
      let avg_cost := holding.avg_price * (quantity : ℚ)
      let proceeds := price * (quantity : ℚ)
      let profit_loss := proceeds - avg_cost
      let cash' := p.cash + proceeds
      let q' := holding.quantity - quantity
      let holdings' :=
        if q' = 0 then aErase p.holdings stock_code
        else aSet p.holdings stock_code { holding with quantity := q' }
      let tx : Transaction :=
        ⟨TxType.SELL, stock_code, holding.stock_name, quantity, price, proceeds,
          some profit_loss, date, now, cash'⟩
      let p' : Portfolio :=
        { p with cash := cash', holdings := holdings',
                 transaction_history := p.transaction_history ++ [tx] }
      (SellResult.ok (sellOkMsg quantity price profit_loss) tx profit_loss,
        p'.recordDailyValue date [(stock_code, price)])

/-- `Portfolio.get_allocation`: the allocation dict starts with the CASH
entry and then assigns one entry per holding with Python dict-assignment
semantics (`aSet`), so a holding whose code is literally `"CASH"` overwrites
the cash entry rather than adding a second one. -/
def Portfolio.getAllocation (p : Portfolio) (prices : List (String × ℚ)) :
    List (String × ℚ) :=
  if p.getCurrentValue prices ≤ 0 then [("CASH", 100)]
  else
    p.holdings.foldl
      (fun alloc pr =>
        aSet alloc pr.1 (round2 ((pr.2.quantity : ℚ) * priceFor prices pr.1 pr.2 /
          p.getCurrentValue prices * 100)))
      [("CASH", round2 (p.cash / p.getCurrentValue prices * 100))]

/-- `Portfolio.take_snapshot`. -/
def Portfolio.takeSnapshot (p : Portfolio) (prices : List (String × ℚ))
    (date now : String) : Portfolio :=
  { p with daily_snapshots := p.daily_snapshots ++
      [⟨date, p.getCurrentValue prices, p.cash, p.getHoldingsValue prices,
        p.holdings.length, now⟩] }

/-- The dictionary produced by `Portfolio.to_dict` (all eight keys always
present). -/
structure PortfolioData where
  name : String
  initial_capital : ℚ
  cash : ℚ
  holdings : List (String × Holding)
  transaction_history : List Transaction
  daily_snapshots : List Snapshot
  daily_values : List DailyValue
  created_at : String
deriving DecidableEq

/-- `Portfolio.to_dict`. -/
def Portfolio.toDict (p : Portfolio) : PortfolioData :=
  ⟨p.name, p.initial_capital, p.cash, p.holdings, p.transaction_history,
    p.daily_snapshots, p.daily_values, p.created_at⟩

/-- `Portfolio.from_dict`: note the rebuild of `daily_values` from
`daily_snapshots` when `daily_values` is empty and snapshots are not. -/
def Portfolio.fromDict (d : PortfolioData) : Portfolio :=
  let dv : List DailyValue :=
    if d.daily_values = [] ∧ d.daily_snapshots ≠ [] then
      d.daily_snapshots.map (fun s => ⟨s.date, s.total_value⟩)
    else d.daily_values
  ⟨d.name, d.initial_capital, d.cash, d.holdings, d.transaction_history,
    d.daily_snapshots, dv, d.created_at⟩

/-- A buy or sell request, with its `date` argument and the wall-clock
reading used for the transaction timestamp. -/
inductive Op where
  | buy (stock_code stock_name : String) (price : ℚ) (quantity : ℕ) (date now : String)
  | sell (stock_code : String) (price : ℚ) (quantity : ℕ) (date now : String)
deriving DecidableEq

/-- Quantity requested by an operation. -/
def Op.qty : Op → ℕ
  | .buy _ _ _ q _ _ => q
  | .sell _ _ q _ _ => q

/-- State reached after one operation (the result dict is discarded; a
rejected operation leaves the state unchanged, as in the source). -/
def stepOp (p : Portfolio) (op : Op) : Portfolio :=
  match op with
  | .buy c n pr q d t => (p.buy c n pr q d t).2
  | .sell c pr q d t => (p.sell c pr q d t).2

/-- State reached after a sequence of operations. -/
def applyOps (p : Portfolio) (ops : List Op) : Portfolio :=
  ops.foldl stepOp p

/-- Total of the BUY transactions in a log (the claim's cash spent on buys). -/
def cashSpentOnBuys (txs : List Transaction) : ℚ :=
  (txs.map (fun t => if t.type = TxType.BUY then t.total else 0)).sum

/-- Total of the SELL transactions in a log (the claim's proceeds from sells). -/
def proceedsFromSells (txs : List Transaction) : ℚ :=
  (txs.map (fun t => if t.type = TxType.SELL then t.total else 0)).sum

/-- Sum of the realized profit and loss recorded on SELL transactions. -/
def realizedPnL (txs : List Transaction) : ℚ :=
  (txs.map (fun t => if t.type = TxType.SELL then t.profit_loss.getD 0 else 0)).sum

/-- Result of one signal adapter call: a value, or the message of the caught
exception (`except Exception as e` with `str(e)`). -/
inductive SigResult (α : Type) where
  | ok (value : α)
  | err (message : String)
deriving DecidableEq

/-- Forecast adapter output after the `.get` extraction in
`_calculate_decision_score` (`trend`, `confidence`, `predictions`). -/
structure ForecastIn where
  trend : ℚ
  confidence : ℚ
  predictions : List ℚ
deriving DecidableEq

/-- Sentiment adapter output after the `.get` extraction. -/
structure SentimentIn where
  score : ℚ
  num_articles : ℕ
  sample_headlines : List String
deriving DecidableEq

/-- Anomaly adapter output after the `.get` extraction. -/
structure AnomalyIn where
  any_anomaly : Bool
  volume_spike : Bool
  price_spike : Bool
  anomaly_score : ℚ
  details : String
deriving DecidableEq

/-- Non-`None` result of `calculate_macd` (its `trend` is always `'bullish'`
or `'bearish'`). -/
structure MacdOut where
  macd : ℚ
  signal : ℚ
  histogram : ℚ
  trend : String
deriving DecidableEq

/-- Results of `calculate_rsi` and `calculate_macd` on the stock history. -/
structure TechIn where
  rsi : Option ℚ
  macd : Option MacdOut
deriving DecidableEq

/-- Market-memory search results per collection: `(text, score)` items. -/
structure MemoryIn where
  news : List (String × ℚ)
  anomalies : List (String × ℚ)
  recommendations : List (String × ℚ)
deriving DecidableEq

/-- Everything `make_recommendation` reads from the outside world for one
stock code: name and price lookups plus the five adapter outcomes.
`memory = none` models an unavailable store (no `memory` key written),
`some none` a caught exception (`signals['memory'] = {}`), and
`some (some m)` retrieved evidence. -/
structure Env where
  stock_name : String
  current_price : ℚ
  forecast : SigResult ForecastIn
  sentiment : SigResult SentimentIn
  anomaly : SigResult AnomalyIn
  technical : SigResult TechIn
  memory : Option (Option MemoryIn)
deriving DecidableEq

/-- Signal weight constants (`WEIGHTS` in `engine.py`). -/
def weightForecast : ℚ := 2/5

/-- Sentiment entry of `WEIGHTS`. -/
def weightSentiment : ℚ := 3/10

/-- Anomaly entry of `WEIGHTS`. -/
def weightAnomaly : ℚ := 1/5

/-- Technical entry of `WEIGHTS`. -/
def weightTechnical : ℚ := 1/10

/-- `THRESHOLDS['buy']`. -/
def thresholdBuy : ℚ := 3

/-- `THRESHOLDS['sell']`. -/
def thresholdSell : ℚ := -3

/-- `PROFILE_MULTIPLIERS.get(user_profile, 1.0)`. -/
def profileMultiplier (user_profile : String) : ℚ :=
  if user_profile = "conservative" then 1/2
  else if user_profile = "moderate" then 1
  else if user_profile = "aggressive" then 6/5
  else 1

/-- Direction label attached to the forecast signal in
`_calculate_decision_score` (`>2%` up, `<-2%` down, else stable). -/
def forecastDirection (trend : ℚ) : String :=
  if trend > 1/50 then "up"
  else if trend < -(1/50) then "down"
  else "stable"

/-- Contribution of the forecast signal to the raw score
(`min(trend*100, 4)` up, `max(trend*100, -4)` down, else 0). -/
def forecastPoints (trend : ℚ) : ℚ :=
  if trend > 1/50 then min (trend * 100) 4
  else if trend < -(1/50) then max (trend * 100) (-4)
  else 0

/-- The `signals['forecast']` entry. -/
inductive ForecastSig where
  | ok (direction : String) (magnitude confidence weight : ℚ) (predictions : List ℚ)
  | err (message : String)
deriving DecidableEq

/-- The `signals['sentiment']` entry. -/
inductive SentimentSig where
  | ok (score : ℚ) (num_articles : ℕ) (headlines : List String) (weight : ℚ)
  | err (message : String)
deriving DecidableEq

/-- The `signals['anomaly']` entry. -/
inductive AnomalySig where
  | ok (detected volume_spike price_spike : Bool) (anomaly_score : ℚ)
      (details : String) (weight : ℚ)
  | err (message : String)
deriving DecidableEq

/-- The `signals['technical']` entry; `absent` models the case where the
block succeeds with neither RSI nor MACD available, so no key is written. -/
inductive TechnicalSig where
  | ok (rsi : Option ℚ) (macd : Option MacdOut) (signal : String) (weight : ℚ)
  | err (message : String)
  | absent
deriving DecidableEq

/-- The `signals['memory']` entry: retrieved evidence, the empty dict written
on an exception, or no key at all (store unavailable). -/
inductive MemorySig where
  | evidence (news anomalies recommendations : List (String × ℚ))
  | empty
  | absent
deriving DecidableEq

/-- The full `signals` dict of a recommendation. -/
structure Signals where
  forecast : ForecastSig
  sentiment : SentimentSig
  anomaly : AnomalySig
  technical : TechnicalSig
  memory : MemorySig
deriving DecidableEq

/-- `_calculate_decision_score` (lines 139 to 355 of `engine.py`): raw score,
signals dict and explanation strings. -/
def calculateDecisionScore (env : Env) : ℚ × Signals × List String :=
  let fres :=
    match env.forecast with
    | .ok f =>
      let expl :=
        if f.trend > 1/50 then
          ["Prevision positive: +" ++ fmtPct1 f.trend ++ " attendu sur 5 jours"]
        else if f.trend < -(1/50) then
          ["Prevision negative: " ++ fmtPct1 f.trend ++ " attendu sur 5 jours"]
        else ["Prevision stable, pas de tendance claire"]
      (forecastPoints f.trend,
        ForecastSig.ok (forecastDirection f.trend) |f.trend| f.confidence
          weightForecast f.predictions, expl)
    | .err e => ((0 : ℚ), ForecastSig.err e, ["Prevision non disponible"])
  let sres :=
    match env.sentiment with
    | .ok s =>
      let pts : ℚ := if s.score > 2/5 then s.score * 3
        else if s.score < -(2/5) then s.score * 3 else 0
      let expl :=
        if s.score > 2/5 then
          ["Sentiment positif (" ++ fmtFix 2 s.score ++ ") base sur " ++
            toString s.num_articles ++ " articles"]
        else if s.score < -(2/5) then
          ["Sentiment negatif (" ++ fmtFix 2 s.score ++ ") - prudence recommandee"]
        else if s.num_articles > 0 then
          ["Sentiment neutre (" ++ fmtFix 2 s.score ++ ") - marche indecis"]
        else ["Pas d\x27articles recents pour l\x27analyse de sentiment"]
      (pts, SentimentSig.ok s.score s.num_articles s.sample_headlines weightSentiment, expl)
    | .err e => ((0 : ℚ), SentimentSig.err e, ["Analyse de sentiment non disponible"])
  let ares :=
    match env.anomaly with
    | .ok a =>
      let pts : ℚ := (if a.volume_spike then -2 else 0) +
        (if a.price_spike then -1 else 0) + (if a.any_anomaly then 0 else 1)
      let expl :=
        (if a.volume_spike then ["Pic de volume anormal detecte - possible manipulation"] else []) ++
        (if a.price_spike then ["Variation de prix inhabituelle sans actualite justificative"] else []) ++
        (if a.any_anomaly then [] else ["Aucune anomalie detectee - trading normal"])
      (pts, AnomalySig.ok a.any_anomaly a.volume_spike a.price_spike a.anomaly_score
        a.details weightAnomaly, expl)
    | .err e => ((0 : ℚ), AnomalySig.err e, ["Detection d\x27anomalies non disponible"])
  let tres :=
    match env.technical with
    | .ok t =>
      let rsiRes :=
        match t.rsi with
        | some r =>
          if r < 30 then
            ((3 : ℚ)/2, "oversold",
              ["RSI indique survente (" ++ fmtFix 1 r ++ ") - opportunite d\x27achat"])
          else if r > 70 then
            (-((3 : ℚ)/2), "overbought",
              ["RSI indique surachat (" ++ fmtFix 1 r ++ ") - risque de correction"])
          else ((0 : ℚ), "neutral", [])
        | none => ((0 : ℚ), "neutral", [])
      let macdTrend : Option String := t.macd.map MacdOut.trend
      let macdRes :=
        if macdTrend = some "bullish" then ((1 : ℚ)/2, ["MACD confirme tendance haussiere"])
        else if macdTrend = some "bearish" then (-((1 : ℚ)/2), ["MACD indique tendance baissiere"])
        else ((0 : ℚ), [])
      let sig :=
        if t.rsi.isSome ∨ t.macd.isSome then
          TechnicalSig.ok t.rsi t.macd
            (match macdTrend with
             | some s => if s = "" then rsiRes.2.1 else s
             | none => rsiRes.2.1)
            weightTechnical
        else TechnicalSig.absent
      (rsiRes.1 + macdRes.1, sig, rsiRes.2.2 ++ macdRes.2)
    | .err e => ((0 : ℚ), TechnicalSig.err e, [])
  let mres :=
    match env.memory with
    | none => (MemorySig.absent, ([] : List String))
    | some none => (MemorySig.empty, ([] : List String))
    | some (some m) =>
      let total := m.news.length + m.anomalies.length + m.recommendations.length
      (MemorySig.evidence m.news m.anomalies m.recommendations,
        if total > 0 then
          ["Evidence semantique: " ++ toString total ++ " elements retrouves dans Market Memory"]
        else [])
  (fres.1 + sres.1 + ares.1 + tres.1,
    ⟨fres.2.1, sres.2.1, ares.2.1, tres.2.1, mres.1⟩,
    fres.2.2 ++ sres.2.2 ++ ares.2.2 ++ tres.2.2 ++ mres.2)

/-- Per-profile BUY threshold chosen inside `_score_to_recommendation`. -/
def buyThreshold (user_profile : String) : ℚ :=
  if user_profile = "conservative" then 4
  else if user_profile = "aggressive" then 2
  else thresholdBuy

/-- Per-profile SELL threshold chosen inside `_score_to_recommendation`. -/
def sellThreshold (user_profile : String) : ℚ :=
  if user_profile = "conservative" then -4
  else if user_profile = "aggressive" then -2
  else thresholdSell

/-- `_score_to_recommendation` (lines 358 to 385 of `engine.py`); the
returned confidence is `round(confidence, 2)`. -/
def scoreToRecommendation (score : ℚ) (user_profile : String) : String × ℚ :=
  if score ≥ buyThreshold user_profile then
    ("BUY", round2 (min (1/2 + (score - buyThreshold user_profile) * (1/10)) (19/20)))
  else if score ≤ sellThreshold user_profile then
    ("SELL", round2 (min (1/2 + (|score| - |sellThreshold user_profile|) * (1/10)) (19/20)))
  else ("HOLD", round2 (1/2 + |score| * (1/20)))

/-- The value `signals.get('technical', {}).get('rsi', 50)` read by
`_assess_risk`; the `ok` case may hold Python `None`. -/
def riskRsiValue : TechnicalSig → Option ℚ
  | .ok rsi _ _ _ => rsi
  | .err _ => some 50
  | .absent => some 50

/-- `_assess_risk` (lines 388 to 425 of `engine.py`); the RSI point keeps
Python truthiness: a literal 0 RSI is falsy and scores no point. -/
def assessRisk (signals : Signals) (score : ℚ) : String :=
  let r1 : ℕ := match signals.anomaly with
    | .ok detected _ _ _ _ _ => if detected then 2 else 0
    | .err _ => 0
  let r2 : ℕ := match signals.anomaly with
    | .ok _ _ _ ascore _ _ => if ascore > 7/10 then 1 else 0
    | .err _ => 0
  let r3 : ℕ := match signals.forecast with
    | .ok _ _ conf _ _ => if conf < 1/2 then 1 else 0
    | .err _ => 0
  let r4 : ℕ := match signals.sentiment with
    | .ok s _ _ _ => if |s| > 4/5 then 1 else 0
    | .err _ => 0
  let r5 : ℕ := match riskRsiValue signals.technical with
    | some r => if r ≠ 0 ∧ (r < 20 ∨ r > 80) then 1 else 0
    | none => 0
  let r6 : ℕ := if |score| > 7 then 1 else 0
  let risk_score := r1 + r2 + r3 + r4 + r5 + r6
  if risk_score ≤ 1 then "LOW" else if risk_score ≤ 3 then "MEDIUM" else "HIGH"

/-- `_generate_suggested_action` (lines 428 to 461 of `engine.py`). -/
def generateSuggestedAction (recommendation stock_name : String)
    (current_price confidence : ℚ) (user_profile : String) : String :=
  let qty_range := if user_profile = "conservative" then "20-50"
    else if user_profile = "aggressive" then "100-200" else "50-100"
  let action_modifier := if user_profile = "conservative" then "prudemment" else ""
  if recommendation = "BUY" then
    if confidence ≥ 7/10 then
      "Acheter " ++ action_modifier ++ " " ++ qty_range ++ " actions de " ++ stock_name ++
        " au prix actuel de " ++ fmtFix 2 current_price ++ " TND"
    else
      "Envisager l\x27achat de " ++ qty_range ++ " actions - surveiller le prix avant d\x27agir"
  else if recommendation = "SELL" then
    if confidence ≥ 7/10 then
      "Vendre " ++ action_modifier ++ " vos positions sur " ++ stock_name ++
        " au prix de " ++ fmtFix 2 current_price ++ " TND"
    else
      "Envisager de reduire votre position - placer un ordre stop-loss"
  else
    "Conserver votre position actuelle sur " ++ stock_name ++ " - pas d\x27action immediate"

/-- The pair `(direction, magnitude)` the explainer reads off the forecast
signal dict (error dicts carry `direction='unknown'` and `magnitude=0`). -/
def ForecastSig.dirMag : ForecastSig → String × ℚ
  | .ok d m _ _ _ => (d, m)
  | .err _ => ("unknown", 0)

/-- The pair `(score, num_articles)` the explainer reads off the sentiment
signal dict (error dicts carry `score=0` and no article count). -/
def SentimentSig.scoreArticles : SentimentSig → ℚ × ℕ
  | .ok s n _ _ => (s, n)
  | .err _ => (0, 0)

/-- The pair `(detected, details)` the explainer reads off the anomaly signal
dict (error dicts carry `detected=False` and no details). -/
def AnomalySig.detectedDetails : AnomalySig → Bool × String
  | .ok d _ _ _ det _ => (d, det)
  | .err _ => (false, "")

/-- The separator `'-' * 40`. -/
def dashes40 : String := String.mk (List.replicate 40 '-')

/-- The two displayed items of one market-memory category. -/
def memoryItemLines (tag : String) (items : List (String × ℚ)) : List String :=
  (items.take 2).map (fun it =>
    "  [" ++ tag ++ "] " ++ it.1.take 100 ++ "... (Score: " ++ fmtFix 2 it.2 ++ ")")

/-- `_generate_french_explanation` (`explainer.py`).  Returns `none` exactly
when the Python code raises a `TypeError`: the technical signal dict exists
with `'rsi': None` (RSI unavailable but MACD present) and line 118 compares
`None < 30`. -/
def genFrenchExplanation (rec stock_name : String) (confidence : ℚ)
    (signals : Signals) (risk suggested : String) : Option String :=
  let colorHint := if rec = "BUY" then "(Signal positif)"
    else if rec = "SELL" then "(Signal negatif)" else "(Signal neutre)"
  let header := if rec = "BUY" then "RECOMMANDATION: ACHETER " ++ stock_name
    else if rec = "SELL" then "RECOMMANDATION: VENDRE " ++ stock_name
    else "RECOMMANDATION: CONSERVER " ++ stock_name
  let intro := [header, "Confiance: " ++ fmtPct0 confidence ++ " " ++ colorHint, "",
    "ANALYSE DETAILLEE:", dashes40]
  let fc :=
    let dm := signals.forecast.dirMag
    if dm.1 = "up" then
      ["  Prevision: Hausse attendue de +" ++ fmtPct1 dm.2 ++ " sur 5 jours",
       "            Le modele de prediction indique une tendance haussiere"]
    else if dm.1 = "down" then
      ["  Prevision: Baisse attendue de " ++ fmtPct1 dm.2 ++ " sur 5 jours",
       "            Le modele de prediction indique une tendance baissiere"]
    else ["  Prevision: Tendance stable, pas de mouvement significatif attendu"]
  let snt :=
    let sa := signals.sentiment.scoreArticles
    let se := if sa.1 > 3/10 then ("POSITIF", "(+)")
      else if sa.1 < -(3/10) then ("NEGATIF", "(-)") else ("NEUTRE", "(=)")
    ["  Sentiment: " ++ se.1 ++ " " ++ se.2,
     "            Score: " ++ fmtFix 2 sa.1 ++ "/1.0 base sur " ++
       toString sa.2 ++ " articles recents"]
  let anm :=
    let dd := signals.anomaly.detectedDetails
    if dd.1 then
      ["  Anomalies: DETECTEES (!)", "            " ++ dd.2,
       "            Prudence recommandee - activite inhabituelle"]
    else
      ["  Anomalies: Aucune detectee",
       "            Trading normal, pas de comportement suspect"]
  let techResult : Option (List String) :=
    match signals.technical with
    | .ok rsi _ _ _ =>
      match rsi with
      | none => none
      | some r =>
        let rsiText := if r < 30 then "SURVENTE (opportunite d\x27achat potentielle)"
          else if r > 70 then "SURACHAT (risque de correction)" else "zone neutre"
        some ["  RSI: " ++ fmtFix 1 r ++ " - " ++ rsiText, ""]
    | _ => some []
  match techResult with
  | none => none
  | some techLines =>
    let mem :=
      match signals.memory with
      | .evidence news anomalies recommendations =>
        let shown := memoryItemLines "Actualite" news ++
          memoryItemLines "Anomalie" anomalies ++
          memoryItemLines "Recommandation" recommendations
        let cnt := news.length + anomalies.length + recommendations.length
        [dashes40, "EVIDENCE RETROUVEE (Market Memory):", ""] ++ shown ++
          (if cnt = 0 then ["  Aucune evidence semantique trouvee dans la memoire du marche"]
           else ["", "  Total: " ++ toString cnt ++ " elements pertinents trouves"]) ++ [""]
      | _ => [dashes40, "(Mode offline: memoire semantique indisponible)", ""]
    let riskText := if risk = "LOW" then "FAIBLE - Volatilite reduite, investissement stable"
      else if risk = "MEDIUM" then "MOYEN - Volatilite moderee, surveiller les positions"
      else if risk = "HIGH" then "ELEVE - Forte volatilite, position speculative"
      else "Non evalue"
    some (String.intercalate "\n"
      (intro ++ fc ++ [""] ++ snt ++ [""] ++ anm ++ [""] ++ techLines ++ mem ++
        [dashes40, "NIVEAU DE RISQUE: " ++ riskText, ""] ++
        (if suggested = "" then [] else [dashes40, "ACTION SUGGEREE: " ++ suggested])))

/-- `generate_short_explanation` (`explainer.py`). -/
def generateShortExplanation (rec stock_name : String) (confidence : ℚ) : String :=
  if rec = "BUY" then
    "ACHETER " ++ stock_name ++ " (confiance: " ++ fmtPct0 confidence ++
      ") - Signaux positifs detectes"
  else if rec = "SELL" then
    "VENDRE " ++ stock_name ++ " (confiance: " ++ fmtPct0 confidence ++
      ") - Signaux negatifs detectes"
  else "CONSERVER " ++ stock_name ++ " - Pas de signal fort, attendre"

/-- The result dict of `make_recommendation`. -/
structure Decision where
  stock_code : String
  stock_name : String
  current_price : ℚ
  recommendation : String
  confidence : ℚ
  score : ℚ
  raw_score : ℚ
  signals : Signals
  risk_level : String
  suggested_action : String
  user_profile : String
  timestamp : String
  explanation : String
  short_explanation : String
deriving DecidableEq

/-- The result dict of `make_recommendation` as first built (lines 117 to
130 of `engine.py`), before the explanation keys are added. -/
def mkBaseDecision (stock_code user_profile : String) (env : Env) (now : String) : Decision :=
  let sr := calculateDecisionScore env
  let adjusted := sr.1 * profileMultiplier user_profile
  let rc := scoreToRecommendation adjusted user_profile
  { stock_code := stock_code
    stock_name := env.stock_name
    current_price := env.current_price
    recommendation := rc.1
    confidence := rc.2
    score := round2 adjusted
    raw_score := round2 sr.1
    signals := sr.2.1
    risk_level := assessRisk sr.2.1 sr.1
    suggested_action := generateSuggestedAction rc.1 env.stock_name env.current_price rc.2 user_profile
    user_profile := user_profile
    timestamp := now
    explanation := ""
    short_explanation := "" }

/-- `generate_explanation(result)` with the default French language. -/
def generateExplanation (d : Decision) : Option String :=
  genFrenchExplanation d.recommendation d.stock_name d.confidence d.signals
    d.risk_level d.suggested_action

/-- `make_recommendation` (lines 72 to 136 of `engine.py`), as a function of
the adapter environment and the wall clock; `none` models the `TypeError`
that `generate_explanation` raises on a technical signal whose RSI is
`None`. -/
def makeRecommendation (stock_code user_profile : String) (env : Env)
    (now : String) : Option Decision :=
  let base := mkBaseDecision stock_code user_profile env now
  match generateExplanation base with
  | none => none
  | some e =>
    some { base with
            explanation := e,
            short_explanation :=
              generateShortExplanation base.recommendation base.stock_name base.confidence }

/-- A decision with its timestamp field cleared, for stating equality of two
results up to the wall clock. -/
def Decision.clearTimestamp (d : Decision) : Decision :=
  { d with timestamp := "" }

/-- Concrete run for the accounting identity: buy one share of `TN1` at 10,
then sell it at 12 (realized profit 2), starting from capital 100. -/
def exC1 : Portfolio :=
  applyOps (mkPortfolio 100 "Demo" "t0")
    [Op.buy "TN1" "Alpha" 10 1 "2024-01-02" "ts1",
     Op.sell "TN1" 12 1 "2024-01-03" "ts2"]

/-- Concrete run reaching a zero-quantity holding: a successful buy of zero
shares creates (and keeps) a holding with quantity 0. -/
def exC4 : Portfolio :=
  applyOps (mkPortfolio 100 "Demo" "t0") [Op.buy "TN1" "Alpha" 10 0 "2024-01-02" "ts1"]

/-- Concrete run holding two shares of `TN1` bought at 10, starting from
capital 100. -/
def exC4b : Portfolio :=
  applyOps (mkPortfolio 100 "Demo" "t0") [Op.buy "TN1" "Alpha" 10 2 "2024-01-02" "ts1"]

/-- Portfolio with a snapshot taken before any trade: `daily_snapshots` is
nonempty while `daily_values` is still empty. -/
def exC7 : Portfolio :=
  (mkPortfolio 10000 "Mon Portefeuille" "t0").takeSnapshot [] "2024-01-02" "t1"

/-- Adapter environment in which every signal source raised, so the score is
0 and the recommendation is HOLD. -/
def envC8 : Env :=
  { stock_name := "Alpha"
    current_price := 10
    forecast := .err "offline"
    sentiment := .err "offline"
    anomaly := .err "offline"
    technical := .err "offline"
    memory := none }

/-- Portfolio state with 30 holdings worth 3204 each plus 3880 cash (total
100000): each holding is 3.204 percent of total value and rounds down to
3.20, so the allocation percentages sum to 99.88. -/
def exC9 : Portfolio :=
  { name := "Wide"
    initial_capital := 100000
    cash := 3880
    holdings := (List.range 30).map
      (fun i => ("S" ++ toString i, ⟨"S" ++ toString i, 1, 3204, "d", "d"⟩))
    transaction_history := []
    daily_snapshots := []
    daily_values := []
    created_at := "t0" }

/-! Shared helper lemmas. -/

theorem rhe_bound (q : ℚ) : q - 1/2 ≤ (rhe q : ℚ) ∧ (rhe q : ℚ) ≤ q + 1/2 := by
  have h0 : ((⌊q⌋ : ℤ) : ℚ) ≤ q := Int.floor_le q
  have h1 : q < ((⌊q⌋ : ℤ) : ℚ) + 1 := Int.lt_floor_add_one q
  unfold rhe
  split_ifs with ha hb hc
  · constructor <;> linarith
  · push_cast
    constructor <;> linarith
  · have hr : q - ((⌊q⌋ : ℤ) : ℚ) = 1/2 := le_antisymm (not_lt.mp hb) (not_lt.mp ha)
    constructor <;> linarith
  · have hr : q - ((⌊q⌋ : ℤ) : ℚ) = 1/2 := le_antisymm (not_lt.mp hb) (not_lt.mp ha)
    push_cast
    constructor <;> linarith

theorem round2_err (q : ℚ) : |round2 q - q| ≤ 1/200 := by
  obtain ⟨hl, hr⟩ := rhe_bound (q * 100)
  rw [abs_le]
  unfold round2
  constructor <;> linarith

theorem round2_ge (k : ℤ) (q : ℚ) (h : (k : ℚ)/100 ≤ q) : (k : ℚ)/100 ≤ round2 q := by
  obtain ⟨hl, _⟩ := rhe_bound (q * 100)
  have h3 : (k : ℚ) - 1 < (rhe (q * 100) : ℚ) := by linarith
  have h4 : k - 1 < rhe (q * 100) := by exact_mod_cast h3
  have h5 : (k : ℚ) ≤ (rhe (q * 100) : ℚ) := by exact_mod_cast (by omega : k ≤ rhe (q * 100))
  unfold round2
  linarith

theorem round2_le (k : ℤ) (q : ℚ) (h : q ≤ (k : ℚ)/100) : round2 q ≤ (k : ℚ)/100 := by
  obtain ⟨_, hr⟩ := rhe_bound (q * 100)
  have h3 : (rhe (q * 100) : ℚ) < (k : ℚ) + 1 := by linarith
  have h4 : rhe (q * 100) < k + 1 := by exact_mod_cast h3
  have h5 : (rhe (q * 100) : ℚ) ≤ (k : ℚ) := by exact_mod_cast (by omega : rhe (q * 100) ≤ k)
  unfold round2
  linarith

theorem aFind_aSet {α : Type} (l : List (String × α)) (k : String) (v : α) :
    aFind (aSet l k v) k = some v := by
  induction l with
  | nil => simp [aSet, aFind]
  | cons hd t ih =>
    by_cases hk : hd.1 = k
    · simp [aSet, aFind, hk]
    · simp [aSet, aFind, hk, ih]

theorem mem_aSet {α : Type} (l : List (String × α)) (k : String) (v : α)
    (pr : String × α) (h : pr ∈ aSet l k v) : pr = (k, v) ∨ pr ∈ l := by
  induction l with
  | nil =>
    simp only [aSet, List.mem_singleton] at h
    exact Or.inl h
  | cons hd t ih =>
    by_cases hk : hd.1 = k
    · rw [show aSet (hd :: t) k v = (k, v) :: t by simp [aSet, hk]] at h
      rcases List.mem_cons.mp h with h | h
      · exact Or.inl h
      · exact Or.inr (List.mem_cons_of_mem _ h)
    · rw [show aSet (hd :: t) k v = hd :: aSet t k v by simp [aSet, hk]] at h
      rcases List.mem_cons.mp h with h | h
      · exact Or.inr (h ▸ List.mem_cons_self _ _)
      · rcases ih h with h | h
        · exact Or.inl h
        · exact Or.inr (List.mem_cons_of_mem _ h)

theorem mem_aErase {α : Type} (l : List (String × α)) (k : String)
    (pr : String × α) (h : pr ∈ aErase l k) : pr ∈ l := by
  induction l with
  | nil => simp [aErase] at h
  | cons hd t ih =>
    by_cases hk : hd.1 = k
    · rw [show aErase (hd :: t) k = t by simp [aErase, hk]] at h
      exact List.mem_cons_of_mem _ h
    · rw [show aErase (hd :: t) k = hd :: aErase t k by simp [aErase, hk]] at h
      rcases List.mem_cons.mp h with h | h
      · exact h ▸ List.mem_cons_self _ _
      · exact List.mem_cons_of_mem _ (ih h)

theorem aFind_eq_none_of_not_mem {α : Type} (l : List (String × α)) (k : String)
    (h : k ∉ l.map Prod.fst) : aFind l k = none := by
  induction l with
  | nil => rfl
  | cons hd t ih =>
    simp only [List.map_cons, List.mem_cons] at h
    push_neg at h
    have hne : hd.1 ≠ k := fun he => h.1 he.symm
    simp [aFind, hne, ih h.2]

theorem aFind_aErase_self {α : Type} (l : List (String × α)) (k : String)
    (hnd : (l.map Prod.fst).Nodup) : aFind (aErase l k) k = none := by
  induction l with
  | nil => rfl
  | cons hd t ih =>
    simp only [List.map_cons, List.nodup_cons] at hnd
    by_cases hk : hd.1 = k
    · rw [show aErase (hd :: t) k = t by simp [aErase, hk]]
      exact aFind_eq_none_of_not_mem t k (hk ▸ hnd.1)
    · rw [show aErase (hd :: t) k = hd :: aErase t k by simp [aErase, hk]]
      simp [aFind, hk, ih hnd.2]

theorem recordDailyValue_cash (p : Portfolio) (d : String) (o : List (String × ℚ)) :
    (p.recordDailyValue d o).cash = p.cash := rfl

theorem recordDailyValue_holdings (p : Portfolio) (d : String) (o : List (String × ℚ)) :
    (p.recordDailyValue d o).holdings = p.holdings := rfl

theorem recordDailyValue_txs (p : Portfolio) (d : String) (o : List (String × ℚ)) :
    (p.recordDailyValue d o).transaction_history = p.transaction_history := rfl

theorem recordDailyValue_initial (p : Portfolio) (d : String) (o : List (String × ℚ)) :
    (p.recordDailyValue d o).initial_capital = p.initial_capital := rfl

theorem buy_snd_of_le (p : Portfolio) (c n : String) (price : ℚ) (qty : ℕ) (d t : String)
    (h : price * (qty : ℚ) ≤ p.cash) :
    (p.buy c n price qty d t).2 =
      Portfolio.recordDailyValue
        { p with cash := p.cash - price * (qty : ℚ),
                 holdings := aSet p.holdings c (buyUpdatedHolding (aFind p.holdings c) n price qty d),
                 transaction_history := p.transaction_history ++
                   [⟨TxType.BUY, c, n, qty, price, price * (qty : ℚ), none, d, t,
                     p.cash - price * (qty : ℚ)⟩] } d [(c, price)] := by
  simp only [Portfolio.buy]
  rw [if_neg (not_lt.mpr h)]

theorem buy_snd_of_gt (p : Portfolio) (c n : String) (price : ℚ) (qty : ℕ) (d t : String)
    (h : p.cash < price * (qty : ℚ)) :
    (p.buy c n price qty d t).2 = p := by
  simp only [Portfolio.buy]
  rw [if_pos h]

theorem sell_snd_of_none (p : Portfolio) (c : String) (price : ℚ) (qty : ℕ) (d t : String)
    (hf : aFind p.holdings c = none) :
    (p.sell c price qty d t).2 = p := by
  simp only [Portfolio.sell, hf]

theorem sell_snd_of_insufficient (p : Portfolio) (c : String) (price : ℚ) (qty : ℕ)
    (d t : String) (h : Holding) (hf : aFind p.holdings c = some h)
    (hq : h.quantity < qty) :
    (p.sell c price qty d t).2 = p := by
  simp only [Portfolio.sell, hf]
  rw [if_pos hq]

theorem sell_snd_of_le (p : Portfolio) (c : String) (price : ℚ) (qty : ℕ)
    (d t : String) (h : Holding) (hf : aFind p.holdings c = some h)
    (hq : qty ≤ h.quantity) :
    (p.sell c price qty d t).2 =
      Portfolio.recordDailyValue
        { p with cash := p.cash + price * (qty : ℚ),
                 holdings := if h.quantity - qty = 0 then aErase p.holdings c
                   else aSet p.holdings c { h with quantity := h.quantity - qty },
                 transaction_history := p.transaction_history ++
                   [⟨TxType.SELL, c, h.stock_name, qty, price, price * (qty : ℚ),
                     some (price * (qty : ℚ) - h.avg_price * (qty : ℚ)), d, t,
                     p.cash + price * (qty : ℚ)⟩] } d [(c, price)] := by
  simp only [Portfolio.sell, hf]
  rw [if_neg (not_lt.mpr hq)]

/-- C2: for every portfolio state and buy request whose cost `price*quantity`
strictly exceeds the cash balance, `buy` returns the InsufficientFunds
rejection carrying the required and available amounts, and the portfolio —
cash, holdings, transaction log and daily valuation series — is unchanged. -/
theorem c2_buy_insufficient_funds_rejects (p : Portfolio) (stock_code stock_name : String)
    (price : ℚ) (quantity : ℕ) (date now : String)
    (h : price * (quantity : ℚ) > p.cash) :
    p.buy stock_code stock_name price quantity date now =
      (BuyResult.insufficientFunds
        (insufficientFundsMsg (price * (quantity : ℚ)) p.cash)
        (price * (quantity : ℚ)) p.cash, p) := by
  simp only [Portfolio.buy]
  rw [if_pos h]

/-- Witness for C2: the spec's scenario, 1000 cash and a buy of 100 shares at
51.50 (cost 5150), is rejected and leaves the portfolio untouched. -/
theorem c2_witness :
    Portfolio.buy (mkPortfolio 1000 "P" "t0") "TN0001600154" "BIAT" (103/2) 100 "d" "ts" =
      (BuyResult.insufficientFunds
        (insufficientFundsMsg ((103/2) * ((100 : ℕ) : ℚ)) (mkPortfolio 1000 "P" "t0").cash)
        ((103/2) * ((100 : ℕ) : ℚ)) (mkPortfolio 1000 "P" "t0").cash,
       mkPortfolio 1000 "P" "t0") ∧
    (103/2 : ℚ) * ((100 : ℕ) : ℚ) = 5150 ∧ (mkPortfolio 1000 "P" "t0").cash = 1000 :=
  ⟨c2_buy_insufficient_funds_rejects (mkPortfolio 1000 "P" "t0") "TN0001600154" "BIAT"
      (103/2) 100 "d" "ts" (by norm_num [mkPortfolio]),
   by norm_num, by norm_num [mkPortfolio]⟩

/-- C6: an `up` forecast (magnitude above 2 percent) contributes exactly
`min(magnitude*100, 4)` to the raw score, a `down` forecast contributes the
symmetric negative amount capped at `-4`, and a `stable` forecast contributes
0. -/
theorem c6_forecast_contribution (trend : ℚ) :
    (forecastDirection trend = "up" → |trend| > 1/50 →
      forecastPoints trend = min (|trend| * 100) 4) ∧
    (forecastDirection trend = "down" → |trend| > 1/50 →
      forecastPoints trend = -(min (|trend| * 100) 4)) ∧
    (forecastDirection trend = "stable" → forecastPoints trend = 0) := by
  unfold forecastDirection forecastPoints
  split_ifs with h1 h2
  · have habs : |trend| = trend := abs_of_pos (lt_trans (by norm_num) h1)
    exact ⟨fun _ _ => by rw [habs], fun hd => absurd hd (by decide),
      fun hd => absurd hd (by decide)⟩
  · have habs : |trend| = -trend := abs_of_neg (lt_trans h2 (by norm_num))
    refine ⟨fun hd => absurd hd (by decide), fun _ _ => ?_,
      fun hd => absurd hd (by decide)⟩
    rw [habs]
    rcases le_total (trend * 100) (-4 : ℚ) with hc | hc
    · rw [max_eq_right hc, show -trend * 100 = -(trend * 100) by ring,
        min_eq_right (by linarith : (4 : ℚ) ≤ -(trend * 100))]
    · rw [max_eq_left hc, show -trend * 100 = -(trend * 100) by ring,
        min_eq_left (by linarith : -(trend * 100) ≤ 4), neg_neg]
  · exact ⟨fun hd => absurd hd (by decide), fun hd => absurd hd (by decide), fun _ => rfl⟩

/-- Witness for C6: an up forecast of magnitude 0.05 contributes exactly 4. -/
theorem c6_witness :
    forecastDirection (1/20) = "up" ∧ |(1/20 : ℚ)| > 1/50 ∧
    forecastPoints (1/20) = min (|(1/20 : ℚ)| * 100) 4 ∧
    min (|(1/20 : ℚ)| * 100) 4 = 4 :=
  ⟨by with_unfolding_all decide, by with_unfolding_all decide,
    (c6_forecast_contribution (1/20)).1 (by with_unfolding_all decide)
      (by with_unfolding_all decide),
    by with_unfolding_all decide⟩

theorem sellThreshold_eq_neg (profile : String) :
    sellThreshold profile = -(buyThreshold profile) := by
  unfold sellThreshold buyThreshold thresholdBuy thresholdSell
  split_ifs <;> norm_num

theorem buyThreshold_pos (profile : String) : 0 < buyThreshold profile := by
  unfold buyThreshold thresholdBuy
  split_ifs <;> norm_num

theorem buyThreshold_cases (profile : String) :
    buyThreshold profile = 4 ∨ buyThreshold profile = 3 ∨ buyThreshold profile = 2 := by
  unfold buyThreshold thresholdBuy
  split_ifs <;> simp

/-- C5 counterexample: at adjusted score 3.123 with the moderate profile the
code returns confidence `round(0.5123, 2) = 0.51`, not the claim's raw
formula value `min(0.5 + (|s| - 3) * 0.1, 0.95) = 0.5123`. -/
theorem c5_confidence_counterexample :
    scoreToRecommendation (3123/1000) "moderate" = ("BUY", 51/100) ∧
    (51 : ℚ)/100 ≠
      min (1/2 + (|(3123 : ℚ)/1000| - buyThreshold "moderate") * (1/10)) (19/20) := by
  constructor
  · with_unfolding_all decide
  · with_unfolding_all decide

/-- C5 amended: same thresholds (conservative 4, moderate 3, aggressive 2,
unknown profiles treated as moderate with multiplier 1), same BUY/SELL/HOLD
mapping and confidence formulas, with the returned confidence being
`round(formula, 2)` (the code rounds the confidence to two decimals). -/
theorem c5_score_to_recommendation_amended (s : ℚ) (profile : String) :
    (s ≥ buyThreshold profile →
      scoreToRecommendation s profile =
        ("BUY", round2 (min (1/2 + (|s| - buyThreshold profile) * (1/10)) (19/20)))) ∧
    (s ≤ -(buyThreshold profile) →
      scoreToRecommendation s profile =
        ("SELL", round2 (min (1/2 + (|s| - buyThreshold profile) * (1/10)) (19/20)))) ∧
    (-(buyThreshold profile) < s → s < buyThreshold profile →
      scoreToRecommendation s profile = ("HOLD", round2 (1/2 + |s| * (1/20)))) ∧
    (buyThreshold "conservative" = 4 ∧ buyThreshold "moderate" = 3 ∧
      buyThreshold "aggressive" = 2) ∧
    (profile ≠ "conservative" → profile ≠ "moderate" → profile ≠ "aggressive" →
      buyThreshold profile = 3 ∧ profileMultiplier profile = 1) := by
  have hpos := buyThreshold_pos profile
  have hneg := sellThreshold_eq_neg profile
  refine ⟨?_, ?_, ?_, ?_, ?_⟩
  · intro h
    have habs : |s| = s := abs_of_pos (lt_of_lt_of_le hpos h)
    unfold scoreToRecommendation
    rw [if_pos h, habs]
  · intro h
    have hlt : ¬ (s ≥ buyThreshold profile) := not_le.mpr (by linarith)
    have habs : |s| = -s := abs_of_neg (by linarith)
    unfold scoreToRecommendation
    rw [if_neg hlt, hneg, if_pos h, habs, abs_neg, abs_of_pos hpos]
  · intro h1 h2
    unfold scoreToRecommendation
    rw [if_neg (not_le.mpr h2), hneg, if_neg (not_le.mpr h1)]
  · refine ⟨?_, ?_, ?_⟩ <;> with_unfolding_all decide
  · intro h1 h2 h3
    constructor
    · simp [buyThreshold, thresholdBuy, h1, h3]
    · simp [profileMultiplier, h1, h2, h3]

/-- Witness for C5 amended: at adjusted score 5 with the moderate profile the
recommendation is BUY with confidence `round(min(0.7, 0.95), 2) = 0.7`. -/
theorem c5_witness :
    scoreToRecommendation 5 "moderate" =
      ("BUY", round2 (min (1/2 + (|(5 : ℚ)| - buyThreshold "moderate") * (1/10)) (19/20))) ∧
    round2 (min (1/2 + (|(5 : ℚ)| - buyThreshold "moderate") * (1/10)) (19/20)) = 7/10 :=
  ⟨(c5_score_to_recommendation_amended 5 "moderate").1 (by with_unfolding_all decide),
   by with_unfolding_all decide⟩

theorem round2_ge_half (q : ℚ) (h : 1/2 ≤ q) : 1/2 ≤ round2 q := by
  have hg := round2_ge 50 q (by push_cast; linarith)
  push_cast at hg
  linarith

theorem round2_le_95 (q : ℚ) (h : q ≤ 19/20) : round2 q ≤ 19/20 := by
  have hg := round2_le 95 q (by push_cast; linarith)
  push_cast at hg
  linarith

/-- C10: for every adjusted score and profile the returned confidence lies in
`[0.5, 0.95]`; on the HOLD branch it is at most `0.5 + threshold * 0.05`,
which never reaches 0.95. -/
theorem c10_confidence_bounds (s : ℚ) (profile : String) :
    1/2 ≤ (scoreToRecommendation s profile).2 ∧
    (scoreToRecommendation s profile).2 ≤ 19/20 ∧
    ((scoreToRecommendation s profile).1 = "HOLD" →
      (scoreToRecommendation s profile).2 ≤ 1/2 + buyThreshold profile * (1/20) ∧
      1/2 + buyThreshold profile * (1/20) < 19/20) := by
  have hpos := buyThreshold_pos profile
  have hneg := sellThreshold_eq_neg profile
  have hbc := buyThreshold_cases profile
  unfold scoreToRecommendation
  rw [hneg, abs_neg, abs_of_pos hpos]
  split_ifs with h1 h2
  · dsimp only
    have hxl : 1/2 ≤ min (1/2 + (s - buyThreshold profile) * (1/10)) (19/20) :=
      le_min (by nlinarith) (by norm_num)
    have hxr : min (1/2 + (s - buyThreshold profile) * (1/10)) (19/20) ≤ 19/20 :=
      min_le_right _ _
    exact ⟨round2_ge_half _ hxl, round2_le_95 _ hxr,
      fun hh => absurd hh (by decide)⟩
  · dsimp only
    have habs : buyThreshold profile ≤ |s| := by
      rw [abs_of_neg (by linarith : s < 0)]
      linarith
    have hxl : 1/2 ≤ min (1/2 + (|s| - buyThreshold profile) * (1/10)) (19/20) :=
      le_min (by nlinarith) (by norm_num)
    have hxr : min (1/2 + (|s| - buyThreshold profile) * (1/10)) (19/20) ≤ 19/20 :=
      min_le_right _ _
    exact ⟨round2_ge_half _ hxl, round2_le_95 _ hxr,
      fun hh => absurd hh (by decide)⟩
  · dsimp only
    have habs : |s| < buyThreshold profile := abs_lt.mpr ⟨by linarith, by linarith⟩
    have habs0 : 0 ≤ |s| := abs_nonneg s
    have hl : 1/2 ≤ 1/2 + |s| * (1/20) := by linarith
    have hb : 1/2 + |s| * (1/20) ≤ 1/2 + buyThreshold profile * (1/20) := by linarith
    have hub : round2 (1/2 + |s| * (1/20)) ≤ 1/2 + buyThreshold profile * (1/20) := by
      rcases hbc with hc | hc | hc <;> rw [hc] at hb ⊢
      · have := round2_le 70 (1/2 + |s| * (1/20)) (by push_cast; linarith)
        push_cast at this
        linarith
      · have := round2_le 65 (1/2 + |s| * (1/20)) (by push_cast; linarith)
        push_cast at this
        linarith
      · have := round2_le 60 (1/2 + |s| * (1/20)) (by push_cast; linarith)
        push_cast at this
        linarith
    have hlt : 1/2 + buyThreshold profile * (1/20) < 19/20 := by
      rcases hbc with hc | hc | hc <;> rw [hc] <;> norm_num
    exact ⟨round2_ge_half _ hl, by linarith, fun _ => ⟨hub, hlt⟩⟩

/-- Witness for C10: at adjusted score 0 with the moderate profile the
recommendation is HOLD and its confidence 0.5 is within the claimed bound. -/
theorem c10_witness :
    (scoreToRecommendation 0 "moderate").2 ≤ 1/2 + buyThreshold "moderate" * (1/20) ∧
    1/2 + buyThreshold "moderate" * (1/20) < 19/20 :=
  (c10_confidence_bounds 0 "moderate").2.2 (by with_unfolding_all decide)

set_option maxRecDepth 200000 in
/-- C8 counterexample: identical adapter outputs and profile, but two calls
whose wall-clock readings differ produce results that are not bit-identical —
the `timestamp` field differs. -/
theorem c8_timestamp_counterexample :
    makeRecommendation "TN0001600154" "moderate" envC8 "2024-01-01T10:00:00" ≠
    makeRecommendation "TN0001600154" "moderate" envC8 "2024-01-01T10:00:01" := by
  with_unfolding_all decide

/-- C8 amended: given identical signal-adapter outputs, prices and risk
profile, two calls to `make_recommendation` agree on every field except
`timestamp`, which records the wall clock of each call. -/
theorem c8_deterministic_up_to_timestamp (stock_code user_profile : String)
    (env : Env) (t1 t2 : String) :
    (makeRecommendation stock_code user_profile env t1).map Decision.clearTimestamp =
    (makeRecommendation stock_code user_profile env t2).map Decision.clearTimestamp := by
  have hexp : generateExplanation (mkBaseDecision stock_code user_profile env t2) =
      generateExplanation (mkBaseDecision stock_code user_profile env t1) := rfl
  simp only [makeRecommendation]
  rw [hexp]
  cases hE : generateExplanation (mkBaseDecision stock_code user_profile env t1) with
  | none => rfl
  | some e => rfl

set_option maxRecDepth 20000 in
/-- C7 counterexample: a portfolio whose only history is one pre-trade
snapshot (`daily_values` empty, `daily_snapshots` nonempty) does not survive
the round trip — `from_dict` rebuilds `daily_values` from the snapshots, so
the result differs from the original in that field. -/
theorem c7_roundtrip_counterexample :
    Portfolio.fromDict (Portfolio.toDict exC7) ≠ exC7 :=
  fun h => absurd (congrArg Portfolio.daily_values h) (by with_unfolding_all decide)

/-- C7 amended: serialising and deserialising reproduces the portfolio
exactly whenever `daily_values` is nonempty or `daily_snapshots` is empty;
in the remaining case every field but `daily_values` is reproduced and
`daily_values` is rebuilt from the snapshots (one entry per snapshot, taking
its date and total value). -/
theorem c7_roundtrip_amended (p : Portfolio) :
    (p.daily_values ≠ [] ∨ p.daily_snapshots = [] →
      Portfolio.fromDict (Portfolio.toDict p) = p) ∧
    (p.daily_values = [] → p.daily_snapshots ≠ [] →
      Portfolio.fromDict (Portfolio.toDict p) =
        { p with daily_values :=
            p.daily_snapshots.map (fun s => ⟨s.date, s.total_value⟩) }) := by
  rcases p with ⟨n, ic, c, hs, th, ds, dv, ca⟩
  constructor
  · rintro (h | h) <;> simp_all [Portfolio.toDict, Portfolio.fromDict]
  · intro h1 h2
    simp_all [Portfolio.toDict, Portfolio.fromDict]

/-- Witness for C7 amended: a freshly created portfolio (both series empty)
round-trips to an identical portfolio, and the snapshot-only portfolio
round-trips to itself with `daily_values` rebuilt from its snapshot. -/
theorem c7_witness :
    Portfolio.fromDict (Portfolio.toDict (mkPortfolio 10000 "Mon Portefeuille" "t0")) =
      mkPortfolio 10000 "Mon Portefeuille" "t0" ∧
    Portfolio.fromDict (Portfolio.toDict exC7) =
      { exC7 with daily_values :=
          exC7.daily_snapshots.map (fun s => ⟨s.date, s.total_value⟩) } :=
  ⟨(c7_roundtrip_amended (mkPortfolio 10000 "Mon Portefeuille" "t0")).1 (Or.inr rfl),
   (c7_roundtrip_amended exC7).2 rfl (by with_unfolding_all decide)⟩

theorem cashSpentOnBuys_append (l1 l2 : List Transaction) :
    cashSpentOnBuys (l1 ++ l2) = cashSpentOnBuys l1 + cashSpentOnBuys l2 := by
  simp [cashSpentOnBuys]

theorem proceedsFromSells_append (l1 l2 : List Transaction) :
    proceedsFromSells (l1 ++ l2) = proceedsFromSells l1 + proceedsFromSells l2 := by
  simp [proceedsFromSells]

theorem stepOp_initial (p : Portfolio) (op : Op) :
    (stepOp p op).initial_capital = p.initial_capital := by
  cases op with
  | buy c n pr q d t =>
    simp only [stepOp]
    by_cases hc : pr * (q : ℚ) > p.cash
    · rw [buy_snd_of_gt p c n pr q d t hc]
    · rw [buy_snd_of_le p c n pr q d t (not_lt.mp hc)]
      rfl
  | sell c pr q d t =>
    simp only [stepOp]
    rcases hf : aFind p.holdings c with _ | h
    · rw [sell_snd_of_none p c pr q d t hf]
    · by_cases hq : h.quantity < q
      · rw [sell_snd_of_insufficient p c pr q d t h hf hq]
      · rw [sell_snd_of_le p c pr q d t h hf (not_lt.mp hq)]
        rfl

theorem stepOp_cash_identity (p : Portfolio) (op : Op)
    (h : cashSpentOnBuys p.transaction_history - proceedsFromSells p.transaction_history
      + p.cash = p.initial_capital) :
    cashSpentOnBuys (stepOp p op).transaction_history
      - proceedsFromSells (stepOp p op).transaction_history + (stepOp p op).cash
      = (stepOp p op).initial_capital := by
  cases op with
  | buy c n pr q d t =>
    simp only [stepOp]
    by_cases hc : pr * (q : ℚ) > p.cash
    · rw [buy_snd_of_gt p c n pr q d t hc]
      exact h
    · rw [buy_snd_of_le p c n pr q d t (not_lt.mp hc)]
      simp only [recordDailyValue_cash, recordDailyValue_txs, recordDailyValue_initial]
      simp only [cashSpentOnBuys_append]
      simp only [proceedsFromSells_append]
      simp only [cashSpentOnBuys, proceedsFromSells] at h
      simp [cashSpentOnBuys, proceedsFromSells]
      linarith
  | sell c pr q d t =>
    simp only [stepOp]
    rcases hf : aFind p.holdings c with _ | hld
    · rw [sell_snd_of_none p c pr q d t hf]
      exact h
    · by_cases hq : hld.quantity < q
      · rw [sell_snd_of_insufficient p c pr q d t hld hf hq]
        exact h
      · rw [sell_snd_of_le p c pr q d t hld hf (not_lt.mp hq)]
        simp only [recordDailyValue_cash, recordDailyValue_txs, recordDailyValue_initial]
        simp only [cashSpentOnBuys_append, proceedsFromSells_append]
        simp only [cashSpentOnBuys, proceedsFromSells] at h
        simp [cashSpentOnBuys, proceedsFromSells]
        linarith

theorem applyOps_cash_identity (ops : List Op) (p : Portfolio)
    (h : cashSpentOnBuys p.transaction_history - proceedsFromSells p.transaction_history
      + p.cash = p.initial_capital) :
    cashSpentOnBuys (applyOps p ops).transaction_history
      - proceedsFromSells (applyOps p ops).transaction_history + (applyOps p ops).cash
      = (applyOps p ops).initial_capital := by
  induction ops generalizing p with
  | nil => exact h
  | cons o t ih =>
    simp only [applyOps, List.foldl_cons] at *
    exact ih (stepOp p o) (stepOp_cash_identity p o h)

theorem applyOps_initial (ops : List Op) (p : Portfolio) :
    (applyOps p ops).initial_capital = p.initial_capital := by
  induction ops generalizing p with
  | nil => rfl
  | cons o t ih =>
    simp only [applyOps, List.foldl_cons] at *
    rw [ih (stepOp p o), stepOp_initial]

set_option maxRecDepth 200000 in
/-- C1 counterexample: starting from capital 100, buying one share at 10 and
selling it at 12 gives `buys - sells + cash = 10 - 12 + 102 = 100`, while
`initial + realized P&L = 100 + 2 = 102`: the claimed identity fails as soon
as a sell realises a nonzero profit or loss. -/
theorem c1_accounting_counterexample :
    cashSpentOnBuys exC1.transaction_history - proceedsFromSells exC1.transaction_history
      + exC1.cash ≠ exC1.initial_capital + realizedPnL exC1.transaction_history := by
  with_unfolding_all decide

/-- C1 amended: for every portfolio and every sequence of buy/sell requests
(successful or rejected), total cash spent on buys minus total proceeds from
sells plus the current cash balance equals the initial capital — without the
realized-P&L term, which double-counts the sell proceeds. -/
theorem c1_cash_accounting_amended (initial_capital : ℚ) (name now : String)
    (ops : List Op) :
    cashSpentOnBuys (applyOps (mkPortfolio initial_capital name now) ops).transaction_history
      - proceedsFromSells (applyOps (mkPortfolio initial_capital name now) ops).transaction_history
      + (applyOps (mkPortfolio initial_capital name now) ops).cash = initial_capital := by
  have h0 : cashSpentOnBuys (mkPortfolio initial_capital name now).transaction_history
      - proceedsFromSells (mkPortfolio initial_capital name now).transaction_history
      + (mkPortfolio initial_capital name now).cash
      = (mkPortfolio initial_capital name now).initial_capital := by
    simp [mkPortfolio, cashSpentOnBuys, proceedsFromSells]
  have hmain := applyOps_cash_identity ops _ h0
  rw [applyOps_initial] at hmain
  exact hmain

theorem stepOp_holdings_pos (p : Portfolio) (op : Op) (hq : 0 < op.qty)
    (h : ∀ e ∈ p.holdings, 0 < e.2.quantity) :
    ∀ e ∈ (stepOp p op).holdings, 0 < e.2.quantity := by
  cases op with
  | buy c n price q d t =>
    simp only [Op.qty] at hq
    simp only [stepOp]
    by_cases hc : price * (q : ℚ) > p.cash
    · rw [buy_snd_of_gt _ _ _ _ _ _ _ hc]
      exact h
    · rw [buy_snd_of_le _ _ _ _ _ _ _ (not_lt.mp hc)]
      simp only [recordDailyValue_holdings]
      intro e he
      rcases mem_aSet _ _ _ _ he with he1 | he1
      · subst he1
        rcases hprev : aFind p.holdings c with _ | h0 <;>
          simp [buyUpdatedHolding, hprev, hq]
      · exact h e he1
  | sell c price q d t =>
    simp only [Op.qty] at hq
    simp only [stepOp]
    rcases hf : aFind p.holdings c with _ | hld
    · rw [sell_snd_of_none _ _ _ _ _ _ hf]
      exact h
    · by_cases hlt : hld.quantity < q
      · rw [sell_snd_of_insufficient _ _ _ _ _ _ hld hf hlt]
        exact h
      · rw [sell_snd_of_le _ _ _ _ _ _ hld hf (not_lt.mp hlt)]
        simp only [recordDailyValue_holdings]
        by_cases hz : hld.quantity - q = 0
        · rw [if_pos hz]
          intro e he
          exact h e (mem_aErase _ _ _ he)
        · rw [if_neg hz]
          intro e he
          rcases mem_aSet _ _ _ _ he with he1 | he1
          · subst he1
            exact Nat.pos_of_ne_zero hz
          · exact h e he1

theorem applyOps_holdings_pos (ops : List Op) (p : Portfolio)
    (hq : ∀ op ∈ ops, 0 < op.qty)
    (h : ∀ e ∈ p.holdings, 0 < e.2.quantity) :
    ∀ e ∈ (applyOps p ops).holdings, 0 < e.2.quantity := by
  induction ops generalizing p with
  | nil => exact h
  | cons o t ih =>
    simp only [applyOps, List.foldl_cons] at *
    exact ih (stepOp p o) (fun op hop => hq op (List.mem_cons_of_mem _ hop))
      (stepOp_holdings_pos p o (hq o (List.mem_cons_self _ _)) h)

set_option maxRecDepth 200000 in
/-- C4 counterexample: a successful buy of zero shares (the code accepts any
quantity whose cost fits the cash balance) creates a holding with quantity 0
that stays in the map, so a reachable portfolio carries a zero-quantity
holding. -/
theorem c4_zero_quantity_counterexample :
    ¬ (∀ e ∈ exC4.holdings, 0 < e.2.quantity) := by
  with_unfolding_all decide

/-- C4 amended: in every portfolio reached by buy/sell operations of strictly
positive quantity, every holding in the map has quantity strictly greater
than zero; and selling the entire held quantity of an instrument (under the
dict guarantee of unique keys) removes its holding from the map entirely. -/
theorem c4_holdings_positive_amended :
    (∀ (initial_capital : ℚ) (name now : String) (ops : List Op),
      (∀ op ∈ ops, 0 < op.qty) →
      ∀ e ∈ (applyOps (mkPortfolio initial_capital name now) ops).holdings,
        0 < e.2.quantity) ∧
    (∀ (p : Portfolio) (stock_code : String) (price : ℚ) (date now : String)
      (h : Holding),
      (p.holdings.map Prod.fst).Nodup →
      aFind p.holdings stock_code = some h →
      aFind ((p.sell stock_code price h.quantity date now).2).holdings stock_code = none) := by
  constructor
  · intro ic nm t ops hq
    exact applyOps_holdings_pos ops _ hq (by simp [mkPortfolio])
  · intro p c price d t h hnd hf
    rw [sell_snd_of_le p c price h.quantity d t h hf (le_refl _)]
    simp only [recordDailyValue_holdings]
    rw [if_pos (Nat.sub_self _)]
    exact aFind_aErase_self _ _ hnd

set_option maxRecDepth 200000 in
/-- Witness for C4 amended: after buying two shares the only holding has
positive quantity, and selling both shares removes the holding. -/
theorem c4_witness :
    (∀ e ∈ exC4b.holdings, 0 < e.2.quantity) ∧
    aFind ((exC4b.sell "TN1" 12 2 "2024-01-03" "ts2").2).holdings "TN1" = none := by
  constructor
  · exact c4_holdings_positive_amended.1 100 "Demo" "t0"
      [Op.buy "TN1" "Alpha" 10 2 "2024-01-02" "ts1"] (by decide)
  · have hf : aFind exC4b.holdings "TN1" =
        some ⟨"Alpha", 2, 10, "2024-01-02", "2024-01-02"⟩ := by
      with_unfolding_all decide
    exact c4_holdings_positive_amended.2 exC4b "TN1" 12 "2024-01-03" "ts2"
      ⟨"Alpha", 2, 10, "2024-01-02", "2024-01-02"⟩ (by with_unfolding_all decide) hf

theorem buyUpdatedHolding_twice (name1 name2 : String) (p1 p2 : ℚ) (q1 q2 : ℕ)
    (d1 d2 : String) (hq : 0 < q1 + q2) :
    buyUpdatedHolding (some (buyUpdatedHolding none name1 p1 q1 d1)) name2 p2 q2 d2 =
      ⟨name1, q1 + q2, ((q1 : ℚ) * p1 + (q2 : ℚ) * p2) / ((q1 : ℚ) + (q2 : ℚ)), d1, d2⟩ := by
  have e1 : buyUpdatedHolding none name1 p1 q1 d1 =
      ⟨name1, q1, if 0 < q1 then ((q1 : ℚ) * p1) / (q1 : ℚ) else 0, d1, d1⟩ := by
    simp [buyUpdatedHolding]
  rw [e1]
  simp only [buyUpdatedHolding, Holding.mk.injEq]
  refine ⟨by trivial, by trivial, ?_, by trivial, by trivial⟩
  rw [if_pos hq]
  rcases Nat.eq_zero_or_pos q1 with hq1 | hq1
  · subst hq1
    simp
  · rw [if_pos hq1]
    have hne : (q1 : ℚ) ≠ 0 := by exact_mod_cast hq1.ne'
    push_cast
    field_simp

/-- C3: starting with no position in an instrument, buying `q1` at `p1` and
then `q2` at `p2` (both buys succeeding, `q1+q2 > 0`) leaves a holding with
quantity `q1+q2` and volume-weighted average cost
`(q1*p1 + q2*p2)/(q1+q2)`. -/
theorem c3_two_buys_average_cost (p : Portfolio) (code name1 name2 : String)
    (p1 p2 : ℚ) (q1 q2 : ℕ) (d1 t1 d2 t2 : String)
    (hfresh : aFind p.holdings code = none)
    (h1 : p1 * (q1 : ℚ) ≤ p.cash)
    (h2 : p2 * (q2 : ℚ) ≤ p.cash - p1 * (q1 : ℚ))
    (hq : 0 < q1 + q2) :
    aFind ((((p.buy code name1 p1 q1 d1 t1).2).buy code name2 p2 q2 d2 t2).2).holdings code =
      some ⟨name1, q1 + q2,
        ((q1 : ℚ) * p1 + (q2 : ℚ) * p2) / ((q1 : ℚ) + (q2 : ℚ)), d1, d2⟩ := by
  have hrc : ((p.buy code name1 p1 q1 d1 t1).2).cash = p.cash - p1 * (q1 : ℚ) := by
    rw [buy_snd_of_le _ _ _ _ _ _ _ h1]
    simp only [recordDailyValue_cash]
  have hrh : ((p.buy code name1 p1 q1 d1 t1).2).holdings =
      aSet p.holdings code (buyUpdatedHolding none name1 p1 q1 d1) := by
    rw [buy_snd_of_le _ _ _ _ _ _ _ h1]
    simp only [recordDailyValue_holdings, hfresh]
  have hfind1 : aFind ((p.buy code name1 p1 q1 d1 t1).2).holdings code =
      some (buyUpdatedHolding none name1 p1 q1 d1) := by
    rw [hrh, aFind_aSet]
  have h2' : p2 * (q2 : ℚ) ≤ ((p.buy code name1 p1 q1 d1 t1).2).cash := by
    rw [hrc]
    exact h2
  rw [buy_snd_of_le _ _ _ _ _ _ _ h2']
  simp only [recordDailyValue_holdings]
  rw [hfind1, hrh, aFind_aSet, buyUpdatedHolding_twice name1 name2 p1 p2 q1 q2 d1 d2 hq]

/-- Witness for C3: the spec's example — buy 50 at 51.50 then 20 at 50.00
from 10000 capital — yields quantity 70 and average cost 3575/70, which is
approximately 51.07. -/
theorem c3_witness :
    aFind ((((mkPortfolio 10000 "Mon Portefeuille" "t0").buy "TN0001600154" "BIAT"
        (103/2) 50 "d1" "u1").2).buy "TN0001600154" "BIAT" 50 20 "d2" "u2").2.holdings
        "TN0001600154" =
      some ⟨"BIAT", 70, 3575/70, "d1", "d2"⟩ ∧
    |(3575 : ℚ)/70 - 5107/100| ≤ 1/100 := by
  constructor
  · have h := c3_two_buys_average_cost (mkPortfolio 10000 "Mon Portefeuille" "t0")
      "TN0001600154" "BIAT" "BIAT" (103/2) 50 50 20 "d1" "u1" "d2" "u2" rfl
      (by norm_num [mkPortfolio]) (by norm_num [mkPortfolio]) (by norm_num)
    refine h.trans ?_
    simp only [Option.some.injEq, Holding.mk.injEq]
    norm_num
  · have e : (3575 : ℚ)/70 - 5107/100 = 1/700 := by norm_num
    rw [e, abs_of_pos (by norm_num : (0 : ℚ) < 1/700)]
    norm_num

theorem sum_map_round2_err (l : List ℚ) :
    |((l.map round2).sum - l.sum)| ≤ (l.length : ℚ) / 200 := by
  induction l with
  | nil => simp
  | cons a t ih =>
    simp only [List.map_cons, List.sum_cons, List.length_cons]
    have e : round2 a + (t.map round2).sum - (a + t.sum) =
        (round2 a - a) + ((t.map round2).sum - t.sum) := by ring
    rw [e]
    push_cast
    calc |(round2 a - a) + ((t.map round2).sum - t.sum)|
        ≤ |round2 a - a| + |(t.map round2).sum - t.sum| := abs_add _ _
      _ ≤ 1/200 + (t.length : ℚ)/200 := add_le_add (round2_err a) ih
      _ = ((t.length : ℚ) + 1)/200 := by ring

theorem list_sum_div_mul {α : Type} (l : List α) (g : α → ℚ) (T c : ℚ) :
    (l.map (fun a => g a / T * c)).sum = (l.map g).sum / T * c := by
  induction l with
  | nil => simp
  | cons a t ih =>
    simp only [List.map_cons, List.sum_cons, ih]
    ring

theorem aSet_append_of_not_mem {α : Type} (l : List (String × α)) (k : String) (v : α)
    (h : k ∉ l.map Prod.fst) : aSet l k v = l ++ [(k, v)] := by
  induction l with
  | nil => rfl
  | cons hd t ih =>
    simp only [List.map_cons, List.mem_cons] at h
    push_neg at h
    have hne : hd.1 ≠ k := fun he => h.1 he.symm
    simp [aSet, hne, ih h.2]

theorem foldl_aSet_eq_append {α : Type} (g : String × Holding → α) :
    ∀ (l : List (String × Holding)) (acc : List (String × α)),
    (∀ pr ∈ l, pr.1 ∉ acc.map Prod.fst) → (l.map Prod.fst).Nodup →
    l.foldl (fun a pr => aSet a pr.1 (g pr)) acc =
      acc ++ l.map (fun pr => (pr.1, g pr)) := by
  intro l
  induction l with
  | nil =>
    intro acc _ _
    simp
  | cons hd t ih =>
    intro acc hmem hnd
    rw [List.map_cons] at hnd
    have hh := List.nodup_cons.mp hnd
    have hstep : ∀ pr ∈ t, pr.1 ∉ (acc ++ [(hd.1, g hd)]).map Prod.fst := by
      intro pr hpr
      have h1 : pr.1 ∉ acc.map Prod.fst := hmem pr (List.mem_cons_of_mem _ hpr)
      have h2 : pr.1 ≠ hd.1 := fun he => hh.1 (he ▸ List.mem_map.mpr ⟨pr, hpr, rfl⟩)
      simp [h1, h2]
    rw [List.foldl_cons,
      aSet_append_of_not_mem acc hd.1 (g hd) (hmem hd (List.mem_cons_self _ _)),
      ih _ hstep hh.2]
    simp

theorem getAllocation_eq_cons (p : Portfolio) (prices : List (String × ℚ))
    (hT : 0 < p.getCurrentValue prices)
    (hnd : (p.holdings.map Prod.fst).Nodup)
    (hnc : "CASH" ∉ p.holdings.map Prod.fst) :
    p.getAllocation prices =
      ("CASH", round2 (p.cash / p.getCurrentValue prices * 100)) ::
        p.holdings.map (fun pr =>
          (pr.1, round2 ((pr.2.quantity : ℚ) * priceFor prices pr.1 pr.2 /
            p.getCurrentValue prices * 100))) := by
  unfold Portfolio.getAllocation
  rw [if_neg (not_le.mpr hT)]
  refine (foldl_aSet_eq_append (fun pr : String × Holding =>
      round2 ((pr.2.quantity : ℚ) * priceFor prices pr.1 pr.2 /
        p.getCurrentValue prices * 100)) p.holdings _ ?_ hnd).trans (by simp)
  intro pr hpr
  simp only [List.map_cons, List.map_nil, List.mem_singleton]
  exact fun he => hnc (he ▸ List.mem_map.mpr ⟨pr, hpr, rfl⟩)

set_option maxRecDepth 400000 in
/-- C9 counterexample: a portfolio with 30 holdings whose percentages are all
3.204 (each rounded down to 3.20) plus 3.88 percent cash has allocation
percentages summing to 99.88, off from 100 by 0.12 > 0.1, while its total
value 100000 is positive. -/
theorem c9_allocation_sum_counterexample :
    0 < exC9.getCurrentValue [] ∧
    ¬ |((exC9.getAllocation []).map Prod.snd).sum - 100| ≤ 1/10 := by
  with_unfolding_all decide

/-- C9 amended: when the total value is positive — and the holding codes are
unique with none equal to the reserved key CASH, so that no dict assignment
overwrites the cash entry — the allocation percentages (CASH plus one entry
per holding) sum to 100 up to the rounding of each of the `k+1` entries to
two decimals, i.e. within `(k+1) * 0.005` — hence within 0.1 whenever at
most 19 instruments are held; when the total value is at most zero the
allocation is exactly 100 percent CASH. -/
theorem c9_allocation_sum_amended (p : Portfolio) (prices : List (String × ℚ)) :
    (0 < p.getCurrentValue prices →
      (p.holdings.map Prod.fst).Nodup →
      "CASH" ∉ p.holdings.map Prod.fst →
      |((p.getAllocation prices).map Prod.snd).sum - 100| ≤
        ((p.holdings.length : ℚ) + 1) / 200) ∧
    (p.getCurrentValue prices ≤ 0 → p.getAllocation prices = [("CASH", 100)]) := by
  constructor
  · intro hT hnd hnc
    have hTne : p.getCurrentValue prices ≠ 0 := ne_of_gt hT
    rw [getAllocation_eq_cons p prices hT hnd hnc]
    simp only [List.map_cons, List.sum_cons, List.map_map]
    have hco : (p.holdings.map (Prod.snd ∘ fun pr : String × Holding =>
        (pr.1, round2 ((pr.2.quantity : ℚ) * priceFor prices pr.1 pr.2 /
          p.getCurrentValue prices * 100)))) =
        ((p.holdings.map (fun pr : String × Holding =>
          (pr.2.quantity : ℚ) * priceFor prices pr.1 pr.2 /
            p.getCurrentValue prices * 100)).map round2) := by
      simp [List.map_map]
    rw [hco]
    have hsum : p.cash / p.getCurrentValue prices * 100 +
        (p.holdings.map (fun pr : String × Holding =>
          (pr.2.quantity : ℚ) * priceFor prices pr.1 pr.2 /
            p.getCurrentValue prices * 100)).sum = 100 := by
      rw [list_sum_div_mul p.holdings
        (fun pr : String × Holding => (pr.2.quantity : ℚ) * priceFor prices pr.1 pr.2)
        (p.getCurrentValue prices) 100]
      have hHV : (p.holdings.map (fun pr : String × Holding =>
          (pr.2.quantity : ℚ) * priceFor prices pr.1 pr.2)).sum =
          p.getHoldingsValue prices := rfl
      rw [hHV]
      have hTdef : p.getCurrentValue prices = p.cash + p.getHoldingsValue prices := rfl
      have h100 : p.cash / p.getCurrentValue prices * 100 +
          p.getHoldingsValue prices / p.getCurrentValue prices * 100 =
          (p.cash + p.getHoldingsValue prices) / p.getCurrentValue prices * 100 := by
        ring
      rw [h100, ← hTdef, div_self hTne, one_mul]
    have e : round2 (p.cash / p.getCurrentValue prices * 100) +
        ((p.holdings.map (fun pr : String × Holding =>
          (pr.2.quantity : ℚ) * priceFor prices pr.1 pr.2 /
            p.getCurrentValue prices * 100)).map round2).sum - 100 =
        (round2 (p.cash / p.getCurrentValue prices * 100) -
          p.cash / p.getCurrentValue prices * 100) +
        (((p.holdings.map (fun pr : String × Holding =>
          (pr.2.quantity : ℚ) * priceFor prices pr.1 pr.2 /
            p.getCurrentValue prices * 100)).map round2).sum -
          (p.holdings.map (fun pr : String × Holding =>
            (pr.2.quantity : ℚ) * priceFor prices pr.1 pr.2 /
              p.getCurrentValue prices * 100)).sum) := by
      linear_combination hsum
    rw [e]
    have hb := sum_map_round2_err (p.holdings.map (fun pr : String × Holding =>
      (pr.2.quantity : ℚ) * priceFor prices pr.1 pr.2 / p.getCurrentValue prices * 100))
    simp only [List.length_map] at hb
    calc _ ≤ _ := abs_add _ _
      _ ≤ 1/200 + (p.holdings.length : ℚ)/200 :=
        add_le_add (round2_err (p.cash / p.getCurrentValue prices * 100)) hb
      _ = ((p.holdings.length : ℚ) + 1)/200 := by ring
  · intro hT
    unfold Portfolio.getAllocation
    rw [if_pos hT]

set_option maxRecDepth 400000 in
/-- Witness for C9 amended: the 30-holding portfolio has positive value,
unique non-CASH codes, and its allocation sum 99.88 is indeed within the
per-entry rounding bound `31 * 0.005 = 0.155`. -/
theorem c9_witness :
    |((exC9.getAllocation []).map Prod.snd).sum - 100| ≤
      ((exC9.holdings.length : ℚ) + 1) / 200 :=
  (c9_allocation_sum_amended exC9 []).1 (by with_unfolding_all decide)
    (by with_unfolding_all decide) (by with_unfolding_all decide)
